import Mathlib

/-!
Verification of the content-persistence and pagination core of the
simpleblog server (src/server.go): post and message repositories backed
by a relational store, the upload store, and the pagination calculator.

The database is modelled as explicit state: the `blog_posts` table is a
list of `Post` rows and the `hello_letters` table a list of
`GuestMessage` rows.  SQL queries are modelled by their standard
semantics over those lists (ORDER BY date DESC as a sort by the `date`
key, LIMIT as `take`, OFFSET as `drop`, count as `length`, WHERE id as
`find?`).  Backend failures are injected through explicit boolean
parameters standing for the error returns of the driver calls, so that
error-handling claims can be stated.  The uploads directory is an
association list from file names to byte contents; `os.Create`
truncates, which the write operation models by replacing an existing
entry.
-/

namespace SimpleBlog

/-- Error taxonomy of the specification: NotFound (single-post lookup
miss), StorageError (persistence failure), IOError (upload write
failure), ValidationError (never raised by the core). -/
inductive Err where
  | notFound
  | storageError
  | ioError
  | validationError
deriving DecidableEq, Repr

/-- Row of the blog_posts table: id, title, body (Text field), ordered
image references, creation timestamp (date column, modelled as Nat). -/
structure Post where
  id : String
  title : String
  text : String
  images : List String
  date : Nat
deriving DecidableEq, Repr

/-- Row of the hello_letters table. -/
structure GuestMessage where
  name : String
  email : String
  message : String
  date : Nat
deriving DecidableEq, Repr

/-- The persistence backend state: both tables. -/
structure DB where
  posts : List Post
  messages : List GuestMessage
deriving DecidableEq, Repr

/-- Ordering used by ORDER BY date DESC on blog_posts: a row comes
before another when its date is at least the other's. -/
def dateGe (a b : Post) : Prop := b.date ≤ a.date

instance : DecidableRel dateGe :=
fun a b => inferInstanceAs (Decidable (b.date ≤ a.date))

instance : IsTotal Post dateGe :=
⟨fun a b => Nat.le_total b.date a.date⟩

instance : IsTrans Post dateGe :=
⟨fun _ _ _ h1 h2 => Nat.le_trans h2 h1⟩

/-- Ordering used by ORDER BY date DESC on hello_letters. -/
def msgGe (a b : GuestMessage) : Prop := b.date ≤ a.date

instance : DecidableRel msgGe :=
fun a b => inferInstanceAs (Decidable (b.date ≤ a.date))

instance : IsTotal GuestMessage msgGe :=
⟨fun a b => Nat.le_total b.date a.date⟩

instance : IsTrans GuestMessage msgGe :=
⟨fun _ _ _ h1 h2 => Nat.le_trans h2 h1⟩

/-- Model of insertPost: INSERT INTO blog_posts(title,body,images).
The id is generated by the database (gen_random_uuid) and the date
column defaults to NOW(); both enter the model as the parameters
`newId` and `now`.  `execFails` injects a failure of db.Exec, which the
Go function returns unchanged (a storage error). -/
def insertPost (title body : String) (images : List String)
    (newId : String) (now : Nat) (execFails : Bool) (db : DB) : Except Err DB :=
  if execFails then .error .storageError
  else .ok { db with posts := db.posts ++ [⟨newId, title, body, images, now⟩] }

/-- Model of insertMessage: INSERT INTO hello_letters(name,email,message). -/
def insertMessage (name mail message : String)
    (now : Nat) (execFails : Bool) (db : DB) : Except Err DB :=
  if execFails then .error .storageError
  else .ok { db with messages := db.messages ++ [⟨name, mail, message, now⟩] }

/-- Model of getPost: SELECT ... FROM blog_posts WHERE id=$1 scanned
with QueryRow; when no row matches, Scan returns sql.ErrNoRows, the
NotFound case of the taxonomy. -/
def getPost (id : String) (db : DB) : Except Err Post :=
  match db.posts.find? (fun p => p.id == id) with
  | some p => .ok p
  | none => .error .notFound

/-- Model of getMessages: SELECT ... FROM hello_letters ORDER BY date
DESC LIMIT 5, with `queryFails` injecting a failure of db.Query, which
the Go function propagates to its caller. -/
def getMessages (queryFails : Bool) (db : DB) : Except Err (List GuestMessage) :=
  if queryFails then .error .storageError
  else .ok ((List.insertionSort msgGe db.messages).take 5)

/-- Messages as computed by handleMain: on a getMessages error the
handler logs and substitutes the empty slice. -/
def handleMainMessages (queryFails : Bool) (db : DB) : List GuestMessage :=
  match getMessages queryFails db with
  | .ok ms => ms
  | .error _ => []

/-- Model of getPostsPage: a count(*) query whose error is discarded
(on failure `total` keeps its zero value), then SELECT ... ORDER BY
date DESC LIMIT $1 OFFSET $2 with LIMIT = perPage and OFFSET =
(page-1)*perPage; a failure of that query is returned. -/
def getPostsPage (page perPage : Nat) (countFails queryFails : Bool)
    (db : DB) : Except Err (List Post × Nat) :=
  let total := if countFails then 0 else db.posts.length
  if queryFails then .error .storageError
  else
    .ok (((List.insertionSort dateGe db.posts).drop ((page - 1) * perPage)).take perPage,
      total)

/-- Last-page computation of handleBlog: last := (total + perPage - 1) / perPage. -/
def lastPage (total perPage : Nat) : Nat := (total + perPage - 1) / perPage

/-- Offset computation of getPostsPage: (page - 1) * perPage. -/
def offset (page perPage : Nat) : Nat := (page - 1) * perPage

/-- Specification-side definition of the last page, stated as the
spec words it: the ceiling of totalCount / pageSize (exact division
over the rationals, rounded up). -/
def lastPageSpec (total perPage : Nat) : Nat := ⌈(total : ℚ) / (perPage : ℚ)⌉₊

/-- Uploads directory state: file name to byte content. -/
abbrev FS := List (String × List Nat)

/-- Model of a write through os.Create followed by io.Copy: creating a
file truncates an existing one of the same name, so an existing entry
is replaced. -/
def fsWrite (fs : FS) (name : String) (content : List Nat) : FS :=
  match fs with
  | [] => [(name, content)]
  | (n, c) :: rest =>
    if n = name then (name, content) :: rest else (n, c) :: fsWrite rest name content

/-- Reading a file of the uploads directory by name. -/
def fsRead (fs : FS) (name : String) : Option (List Nat) :=
  match fs with
  | [] => none
  | (n, c) :: rest => if n = name then some c else fsRead rest name

/-- One multipart file of a create-post request, as saveImages sees it:
the outcomes of fh.Open, os.Create and io.Copy are injected as flags,
`nano` is the value time.Now().UnixNano() returns during the iteration,
`ext` is filepath.Ext of the original file name, and `content` the
uploaded bytes. -/
structure FileUpload where
  openFails : Bool
  createFails : Bool
  copyFails : Bool
  nano : Nat
  ext : String
  content : List Nat
deriving DecidableEq, Repr

/-- All three injected I/O steps of a file succeed. -/
def noFail (f : FileUpload) : Prop :=
  f.openFails = false ∧ f.createFails = false ∧ f.copyFails = false

instance (f : FileUpload) : Decidable (noFail f) :=
inferInstanceAs (Decidable (_ ∧ _ ∧ _))

/-- File name generated by saveImages:
strconv.FormatInt(time.Now().UnixNano(), 10) + filepath.Ext(fh.Filename). -/
def uploadName (f : FileUpload) : String := Nat.repr f.nano ++ f.ext

/-- Public reference path returned for a stored upload. -/
def uploadRef (f : FileUpload) : String := "/uploads/" ++ uploadName f

/-- Model of saveImages: iterate the files in order; on an Open error
return with the directory as written so far; after a successful Create
the destination exists (truncated), so a Copy error leaves an empty
file behind; on success the reference path is appended to the result
list. -/
def saveImages : List FileUpload → FS → Except Err (List String) × FS
  | [], fs => (.ok [], fs)
  | f :: rest, fs =>
    if f.openFails then (.error .ioError, fs)
    else if f.createFails then (.error .ioError, fs)
    else if f.copyFails then (.error .ioError, fsWrite fs (uploadName f) [])
    else
      match saveImages rest (fsWrite fs (uploadName f) f.content) with
      | (.ok paths, fs2) => (.ok (uploadRef f :: paths), fs2)
      | (.error e, fs2) => (.error e, fs2)

/-- Core of handleCreatePost after the credential check: saveImages
first; on its error respond with the error before any insert; otherwise
insertPost with the collected references, reporting its error if any. -/
def handleCreatePost (title text : String) (files : List FileUpload)
    (newId : String) (now : Nat) (insertFails : Bool) (db : DB) (fs : FS) :
    DB × FS × Except Err Unit :=
  match saveImages files fs with
  | (.error e, fs2) => (db, fs2, .error e)
  | (.ok imgs, fs2) =>
    match insertPost title text imgs newId now insertFails db with
    | .error e => (db, fs2, .error e)
    | .ok db2 => (db2, fs2, .ok ())

/-!
Auxiliary development: the decimal rendering used by the upload store
to generate file names (Nat.repr) is injective, proved by relating the
fuelled core-library digit printer to Mathlib's Nat.digits.
-/

theorem digitChar_inj_of_lt :
    ∀ d1 < 10, ∀ d2 < 10, Nat.digitChar d1 = Nat.digitChar d2 → d1 = d2 := by
  decide

theorem map_digitChar_inj :
    ∀ l1 l2 : List Nat, (∀ d ∈ l1, d < 10) → (∀ d ∈ l2, d < 10) →
      l1.map Nat.digitChar = l2.map Nat.digitChar → l1 = l2
  | [], [], _, _, _ => rfl
  | [], _ :: _, _, _, h => by simp at h
  | _ :: _, [], _, _, h => by simp at h
  | d1 :: t1, d2 :: t2, h1, h2, h => by
    simp only [List.map_cons, List.cons.injEq] at h
    have hd := digitChar_inj_of_lt d1 (h1 d1 (by simp)) d2 (h2 d2 (by simp)) h.1
    have ht := map_digitChar_inj t1 t2 (fun d hd => h1 d (by simp [hd]))
      (fun d hd => h2 d (by simp [hd])) h.2
    simp [hd, ht]

theorem toDigitsCore_eq_digits (fuel : Nat) :
    ∀ (n : Nat) (acc : List Char), 0 < n → n < fuel →
      Nat.toDigitsCore 10 fuel n acc
        = ((Nat.digits 10 n).map Nat.digitChar).reverse ++ acc := by
  induction fuel with
  | zero => intro n acc _ h2; omega
  | succ fuel ih =>
    intro n acc hn hlt
    simp only [Nat.toDigitsCore]
    by_cases h10 : n / 10 = 0
    · rw [if_pos h10, Nat.digits_def' (by norm_num : (1:ℕ) < 10) hn, h10]
      simp
    · rw [if_neg h10]
      have hpos : 0 < n / 10 := Nat.pos_of_ne_zero h10
      have hlt2 : n / 10 < fuel := by
        have hself : n / 10 < n := Nat.div_lt_self hn (by norm_num)
        omega
      rw [ih (n / 10) (Nat.digitChar (n % 10) :: acc) hpos hlt2,
        Nat.digits_def' (by norm_num : (1:ℕ) < 10) hn]
      simp

theorem repr_eq_of_pos {n : Nat} (hn : 0 < n) :
    Nat.repr n = (((Nat.digits 10 n).map Nat.digitChar).reverse).asString := by
  unfold Nat.repr Nat.toDigits
  rw [toDigitsCore_eq_digits (n + 1) n [] hn (Nat.lt_succ_self n)]
  simp

/-- Decimal digit list rendered by Nat.repr, most significant first. -/
def reprDigits (n : Nat) : List Nat :=
  if n = 0 then [0] else (Nat.digits 10 n).reverse

theorem repr_eq_asString (n : Nat) :
    Nat.repr n = ((reprDigits n).map Nat.digitChar).asString := by
  rcases Nat.eq_zero_or_pos n with rfl | hn
  · rfl
  · rw [repr_eq_of_pos hn]
    unfold reprDigits
    rw [if_neg (Nat.pos_iff_ne_zero.mp hn), List.map_reverse]

theorem reprDigits_lt (n : Nat) : ∀ d ∈ reprDigits n, d < 10 := by
  intro d hd
  unfold reprDigits at hd
  by_cases hn : n = 0
  · rw [if_pos hn] at hd
    simp at hd
    omega
  · rw [if_neg hn, List.mem_reverse] at hd
    exact Nat.digits_lt_base (by norm_num) hd

theorem reprDigits_inj {m n : Nat} (h : reprDigits m = reprDigits n) : m = n := by
  unfold reprDigits at h
  by_cases hm : m = 0 <;> by_cases hn : n = 0
  · rw [hm, hn]
  · rw [if_pos hm, if_neg hn] at h
    have hdig : Nat.digits 10 n = [0] := by
      have := congrArg List.reverse h
      simpa using this.symm
    have := Nat.ofDigits_digits 10 n
    rw [hdig] at this
    simp [Nat.ofDigits] at this
    omega
  · rw [if_neg hm, if_pos hn] at h
    have hdig : Nat.digits 10 m = [0] := by
      have := congrArg List.reverse h
      simpa using this
    have := Nat.ofDigits_digits 10 m
    rw [hdig] at this
    simp [Nat.ofDigits] at this
    omega
  · rw [if_neg hm, if_neg hn] at h
    have hdig : Nat.digits 10 m = Nat.digits 10 n := by
      have := congrArg List.reverse h
      simpa using this
    have h1 := Nat.ofDigits_digits 10 m
    have h2 := Nat.ofDigits_digits 10 n
    rw [← h1, ← h2, hdig]

theorem asString_inj {l1 l2 : List Char} (h : l1.asString = l2.asString) :
    l1 = l2 := by
  have hd := congrArg String.data h
  simpa [List.asString] using hd

theorem repr_injective : Function.Injective Nat.repr := by
  intro m n h
  rw [repr_eq_asString, repr_eq_asString] at h
  exact reprDigits_inj
    (map_digitChar_inj _ _ (reprDigits_lt m) (reprDigits_lt n) (asString_inj h))

theorem string_append_right_inj {a b e : String} (h : a ++ e = b ++ e) :
    a = b := by
  have hd := congrArg String.data h
  rw [String.data_append, String.data_append] at hd
  have := List.append_cancel_right hd
  cases a
  cases b
  exact congrArg String.mk this

theorem string_append_left_inj {p a b : String} (h : p ++ a = p ++ b) :
    a = b := by
  have hd := congrArg String.data h
  rw [String.data_append, String.data_append] at hd
  have := List.append_cancel_left hd
  cases a
  cases b
  exact congrArg String.mk this

theorem uploadName_ne_of_nano_ne {f1 f2 : FileUpload} (hext : f1.ext = f2.ext)
    (hnano : f1.nano ≠ f2.nano) : uploadName f1 ≠ uploadName f2 := by
  unfold uploadName
  rw [hext]
  intro h
  exact hnano (repr_injective (string_append_right_inj h))

theorem uploadRef_ne_of_nano_ne {f1 f2 : FileUpload} (hext : f1.ext = f2.ext)
    (hnano : f1.nano ≠ f2.nano) : uploadRef f1 ≠ uploadRef f2 := by
  unfold uploadRef
  intro h
  exact uploadName_ne_of_nano_ne hext hnano (string_append_left_inj h)

theorem fsRead_fsWrite_self (fs : FS) (name : String) (c : List Nat) :
    fsRead (fsWrite fs name c) name = some c := by
  induction fs with
  | nil => simp [fsWrite, fsRead]
  | cons hd tl ih =>
    obtain ⟨n, cc⟩ := hd
    by_cases h : n = name <;> simp [fsWrite, fsRead, h, ih]

theorem fsRead_fsWrite_other (fs : FS) (name other : String) (c : List Nat)
    (h : name ≠ other) : fsRead (fsWrite fs name c) other = fsRead fs other := by
  induction fs with
  | nil => simp [fsWrite, fsRead, h]
  | cons hd tl ih =>
    obtain ⟨n, cc⟩ := hd
    by_cases hn : n = name
    · subst hn
      simp [fsWrite, fsRead, h, ih]
    · by_cases ho : n = other <;> simp [fsWrite, fsRead, h, Ne.symm h, hn, ho, ih]

theorem find?_append_of_none {α : Type} (p : α → Bool) (l1 l2 : List α)
    (h : l1.find? p = none) : (l1 ++ l2).find? p = l2.find? p := by
  rw [List.find?_append, h, Option.none_or]

theorem lastPage_le_iff {t k n : Nat} (hk : 0 < k) :
    lastPage t k ≤ n ↔ t ≤ n * k := by
  unfold lastPage
  rw [Nat.div_le_iff_le_mul_add_pred hk, Nat.mul_comm k n]
  generalize n * k = m
  omega

/-- C1: for every title, body, and ordered list of image references,
creating a post and then fetching it by the generated identifier (fresh
in the store, as a generated UUID primary key is) returns a Post whose
title, body, and image references are exactly those given at creation,
with the image references in the same order. -/
theorem create_then_get (title body : String) (images : List String)
    (newId : String) (now : Nat) (db db2 : DB)
    (hfresh : ∀ p ∈ db.posts, p.id ≠ newId)
    (hins : insertPost title body images newId now false db = .ok db2) :
    ∃ p, getPost newId db2 = .ok p ∧
      p.title = title ∧ p.text = body ∧ p.images = images := by
  simp only [insertPost, Bool.false_eq_true, if_false, Except.ok.injEq] at hins
  subst hins
  have hnone : db.posts.find? (fun p => p.id == newId) = none := by
    rw [List.find?_eq_none]
    intro x hx
    simpa using hfresh x hx
  refine ⟨⟨newId, title, body, images, now⟩, ?_, rfl, rfl, rfl⟩
  simp [getPost, find?_append_of_none _ _ _ hnone, List.find?]

/-- Witness for create_then_get at a concrete instance. -/
theorem create_then_get_witness :
    ∃ p, getPost "id1"
        { posts := [⟨"id1", "t", "b", ["i1", "i2"], 3⟩], messages := [] } = .ok p ∧
      p.title = "t" ∧ p.text = "b" ∧ p.images = ["i1", "i2"] :=
  create_then_get "t" "b" ["i1", "i2"] "id1" 3 ⟨[], []⟩
    { posts := [⟨"id1", "t", "b", ["i1", "i2"], 3⟩], messages := [] }
    (by simp) rfl

/-- C2: if storing any one of the images fails, handleCreatePost aborts
before the post insertion: the post store is returned unchanged and the
failure is reported to the caller. -/
theorem saveImages_failure_aborts (title text : String) (files : List FileUpload)
    (newId : String) (now : Nat) (insertFails : Bool) (db : DB) (fs fs2 : FS) (e : Err)
    (h : saveImages files fs = (.error e, fs2)) :
    handleCreatePost title text files newId now insertFails db fs = (db, fs2, .error e) := by
  unfold handleCreatePost
  rw [h]

/-- Witness for saveImages_failure_aborts: a single image whose Open
step fails leaves the post store unchanged. -/
theorem saveImages_failure_aborts_witness :
    handleCreatePost "t" "b" [⟨true, false, false, 0, "", []⟩] "id1" 0 false ⟨[], []⟩ []
      = (⟨[], []⟩, [], .error .ioError) :=
  saveImages_failure_aborts "t" "b" [⟨true, false, false, 0, "", []⟩] "id1" 0 false
    ⟨[], []⟩ [] [] .ioError rfl

/-- C8: when no post with the identifier exists in the store, getPost
fails with NotFound, returning no Post and no other error category. -/
theorem getPost_not_found (id : String) (db : DB)
    (h : ∀ p ∈ db.posts, p.id ≠ id) :
    getPost id db = .error .notFound := by
  have hnone : db.posts.find? (fun p => p.id == id) = none := by
    rw [List.find?_eq_none]
    intro x hx
    simpa using h x hx
  simp [getPost, hnone]

/-- Witness for getPost_not_found on a nonempty store. -/
theorem getPost_not_found_witness :
    getPost "b" { posts := [⟨"a", "t", "x", [], 0⟩], messages := [] } = .error .notFound :=
  getPost_not_found "b" { posts := [⟨"a", "t", "x", [], 0⟩], messages := [] } (by decide)

/-- C9: insertPost never fails with ValidationError; empty title and
body are accepted and stored, and the only failure mode is
storageError on a persistence failure. -/
theorem insertPost_no_validation (title body : String) (images : List String)
    (newId : String) (now : Nat) (db : DB) :
    insertPost title body images newId now false db ≠ .error .validationError ∧
    insertPost title body images newId now true db ≠ .error .validationError ∧
    insertPost title body images newId now false db =
      .ok { db with posts := db.posts ++ [⟨newId, title, body, images, now⟩] } ∧
    insertPost "" "" images newId now false db =
      .ok { db with posts := db.posts ++ [⟨newId, "", "", images, now⟩] } ∧
    insertPost title body images newId now true db = .error .storageError := by
  refine ⟨?_, ?_, rfl, rfl, rfl⟩ <;> simp [insertPost]

/-- Witness for insertPost_no_validation at a concrete instance. -/
theorem insertPost_no_validation_witness :
    insertPost "t" "x" ["i"] "id1" 0 false ⟨[], []⟩ ≠ .error .validationError ∧
    insertPost "t" "x" ["i"] "id1" 0 true ⟨[], []⟩ ≠ .error .validationError ∧
    insertPost "t" "x" ["i"] "id1" 0 false ⟨[], []⟩ =
      .ok { posts := [] ++ [⟨"id1", "t", "x", ["i"], 0⟩], messages := [] } ∧
    insertPost "" "" ["i"] "id1" 0 false ⟨[], []⟩ =
      .ok { posts := [] ++ [⟨"id1", "", "", ["i"], 0⟩], messages := [] } ∧
    insertPost "t" "x" ["i"] "id1" 0 true ⟨[], []⟩ = .error .storageError :=
  insertPost_no_validation "t" "x" ["i"] "id1" 0 ⟨[], []⟩

/-- C10: a failure of the total-count query is silently ignored by
getPostsPage: the same page of posts is returned with a totalCount of
0 and no error instead of a reported persistence failure. -/
theorem count_failure_ignored (page perPage : Nat) (db : DB) :
    getPostsPage page perPage false false db =
      .ok (((List.insertionSort dateGe db.posts).drop ((page - 1) * perPage)).take perPage,
        db.posts.length) ∧
    getPostsPage page perPage true false db =
      .ok (((List.insertionSort dateGe db.posts).drop ((page - 1) * perPage)).take perPage,
        0) :=
  ⟨rfl, rfl⟩

/-- C3: for every page ≥ 1, getPostsPage returns at most perPage
posts, ordered by date descending, being exactly the slice starting at
offset (page-1)*perPage of a date-descending sorted permutation of the
store, together with the total number of posts in the store. -/
theorem getPostsPage_spec (page perPage : Nat) (db : DB) (l : List Post) (total : Nat)
    (_hpage : 1 ≤ page)
    (h : getPostsPage page perPage false false db = .ok (l, total)) :
    l.length ≤ perPage ∧ List.Sorted dateGe l ∧ total = db.posts.length ∧
    (List.insertionSort dateGe db.posts).Perm db.posts ∧
    List.Sorted dateGe (List.insertionSort dateGe db.posts) ∧
    l = ((List.insertionSort dateGe db.posts).drop ((page - 1) * perPage)).take perPage := by
  simp only [getPostsPage, Bool.false_eq_true, if_false, Except.ok.injEq,
    Prod.mk.injEq] at h
  obtain ⟨h1, h2⟩ := h
  subst h1
  subst h2
  have hsorted := List.sorted_insertionSort dateGe db.posts
  refine ⟨?_, ?_, rfl, List.perm_insertionSort dateGe db.posts, hsorted, rfl⟩
  · exact List.length_take_le _ _
  · exact List.Pairwise.sublist
      ((List.take_sublist _ _).trans (List.drop_sublist _ _)) hsorted

/-- Witness for getPostsPage_spec on a two-post store. -/
theorem getPostsPage_spec_witness :
    ([⟨"b", "t2", "x2", [], 2⟩, ⟨"a", "t1", "x1", [], 1⟩] : List Post).length ≤ 3 ∧
    List.Sorted dateGe [⟨"b", "t2", "x2", [], 2⟩, ⟨"a", "t1", "x1", [], 1⟩] ∧
    2 = (DB.mk [⟨"a", "t1", "x1", [], 1⟩, ⟨"b", "t2", "x2", [], 2⟩] []).posts.length ∧
    (List.insertionSort dateGe
      (DB.mk [⟨"a", "t1", "x1", [], 1⟩, ⟨"b", "t2", "x2", [], 2⟩] []).posts).Perm
      (DB.mk [⟨"a", "t1", "x1", [], 1⟩, ⟨"b", "t2", "x2", [], 2⟩] []).posts ∧
    List.Sorted dateGe (List.insertionSort dateGe
      (DB.mk [⟨"a", "t1", "x1", [], 1⟩, ⟨"b", "t2", "x2", [], 2⟩] []).posts) ∧
    [⟨"b", "t2", "x2", [], 2⟩, ⟨"a", "t1", "x1", [], 1⟩] =
      ((List.insertionSort dateGe
        (DB.mk [⟨"a", "t1", "x1", [], 1⟩, ⟨"b", "t2", "x2", [], 2⟩] []).posts).drop
          ((1 - 1) * 3)).take 3 :=
  getPostsPage_spec 1 3 (DB.mk [⟨"a", "t1", "x1", [], 1⟩, ⟨"b", "t2", "x2", [], 2⟩] [])
    [⟨"b", "t2", "x2", [], 2⟩, ⟨"a", "t1", "x1", [], 1⟩] 2 (by decide) rfl

/-- C4: requesting a page strictly beyond the last page succeeds (no
error) and returns the empty sequence together with the correct total
count of posts in the store. -/
theorem getPostsPage_beyond_last (page perPage : Nat) (db : DB)
    (hper : 1 ≤ perPage) (hbeyond : lastPage db.posts.length perPage < page) :
    getPostsPage page perPage false false db = .ok ([], db.posts.length) := by
  have hoff : db.posts.length ≤ (page - 1) * perPage :=
    (lastPage_le_iff hper).1 (by omega)
  have hdrop : (List.insertionSort dateGe db.posts).drop ((page - 1) * perPage) = [] := by
    apply List.drop_eq_nil_of_le
    rw [(List.perm_insertionSort dateGe db.posts).length_eq]
    exact hoff
  simp [getPostsPage, hdrop]

/-- Witness for getPostsPage_beyond_last: page 2 of a one-post store
with page size 3. -/
theorem getPostsPage_beyond_last_witness :
    getPostsPage 2 3 false false (DB.mk [⟨"a", "t", "x", [], 0⟩] []) =
      .ok ([], (DB.mk [⟨"a", "t", "x", [], 0⟩] []).posts.length) :=
  getPostsPage_beyond_last 2 3 (DB.mk [⟨"a", "t", "x", [], 0⟩] [])
    (by decide) (by decide)

/-- C5: the last-page computation of handleBlog equals the ceiling of
totalCount / pageSize, in particular 0 when totalCount is 0, and the
offset used by getPostsPage is (page-1)*pageSize, with the concrete
values the specification lists. -/
theorem pagination_calculator_spec (total pageSize : Nat) (hk : 1 ≤ pageSize) :
    lastPage total pageSize = lastPageSpec total pageSize ∧
    lastPage 0 pageSize = 0 ∧
    lastPage 7 3 = 3 ∧ lastPage 9 3 = 3 ∧ offset 1 3 = 0 ∧ offset 3 3 = 6 := by
  have hk0 : (0 : ℚ) < (pageSize : ℚ) := by exact_mod_cast hk
  refine ⟨?_, ?_, by decide, by decide, by decide, by decide⟩
  · apply Nat.le_antisymm
    · rw [lastPage_le_iff hk]
      have hle := Nat.le_ceil ((total : ℚ) / (pageSize : ℚ))
      have h2 : (total : ℚ) ≤ (lastPageSpec total pageSize : ℚ) * (pageSize : ℚ) := by
        have h3 := mul_le_mul_of_nonneg_right hle (le_of_lt hk0)
        rwa [div_mul_cancel₀ _ (ne_of_gt hk0)] at h3
      exact_mod_cast h2
    · unfold lastPageSpec
      rw [Nat.ceil_le, div_le_iff₀ hk0]
      have h4 : total ≤ lastPage total pageSize * pageSize :=
        (lastPage_le_iff hk).1 (le_refl _)
      exact_mod_cast h4
  · unfold lastPage
    exact Nat.div_eq_of_lt (by omega)

/-- Witness for pagination_calculator_spec at pageSize 3. -/
theorem pagination_calculator_spec_witness :
    lastPage 7 3 = lastPageSpec 7 3 ∧
    lastPage 0 3 = 0 ∧
    lastPage 7 3 = 3 ∧ lastPage 9 3 = 3 ∧ offset 1 3 = 0 ∧ offset 3 3 = 6 :=
  pagination_calculator_spec 7 3 (by decide)

/-- C7: the caller-facing recent-messages list of handleMain has at
most 5 entries (the query's LIMIT), is ordered by date descending, and
a backend read failure is downgraded to the empty list even though
getMessages itself reports a storage error. -/
theorem recent_messages_spec (queryFails : Bool) (db : DB) :
    (handleMainMessages queryFails db).length ≤ 5 ∧
    List.Sorted msgGe (handleMainMessages queryFails db) ∧
    handleMainMessages true db = [] ∧
    getMessages true db = .error .storageError := by
  refine ⟨?_, ?_, rfl, rfl⟩
  · cases queryFails
    · simp only [handleMainMessages, getMessages, Bool.false_eq_true, if_false]
      exact List.length_take_le _ _
    · simp [handleMainMessages, getMessages]
  · cases queryFails
    · simpa [handleMainMessages, getMessages] using
        List.Pairwise.sublist (List.take_sublist _ _)
          (List.sorted_insertionSort msgGe db.messages)
    · simp [handleMainMessages, getMessages]

/-- C6 counterexample: two fault-free stores in one saveImages call
that observe the same UnixNano reading and carry the same extension
(same original filename) produce the identical reference — the
returned references are not pairwise distinct — and only one file
exists afterwards, holding the second upload's content. -/
theorem saveImages_same_nano_collision :
    saveImages [⟨false, false, false, 7, ".png", [1]⟩,
        ⟨false, false, false, 7, ".png", [2]⟩] []
      = (.ok ["/uploads/7.png", "/uploads/7.png"], [("7.png", [2])]) ∧
    ¬ ([("/uploads/7.png" : String), "/uploads/7.png"].Nodup) :=
  ⟨rfl, by decide⟩

/-- C6 amended: distinct references are guaranteed exactly when the
observed UnixNano readings differ: two fault-free stores with the same
extension (in particular with the same original filename) and distinct
timestamp readings yield distinct references, and both referenced
files are independently readable afterwards with their respective
contents. -/
theorem saveImages_distinct_nano (f1 f2 : FileUpload) (fs : FS)
    (h1 : noFail f1) (h2 : noFail f2) (hext : f1.ext = f2.ext)
    (hnano : f1.nano ≠ f2.nano) :
    saveImages [f1, f2] fs
      = (.ok [uploadRef f1, uploadRef f2],
         fsWrite (fsWrite fs (uploadName f1) f1.content) (uploadName f2) f2.content) ∧
    uploadRef f1 ≠ uploadRef f2 ∧
    fsRead (fsWrite (fsWrite fs (uploadName f1) f1.content) (uploadName f2) f2.content)
      (uploadName f1) = some f1.content ∧
    fsRead (fsWrite (fsWrite fs (uploadName f1) f1.content) (uploadName f2) f2.content)
      (uploadName f2) = some f2.content := by
  obtain ⟨ho1, hc1, hp1⟩ := h1
  obtain ⟨ho2, hc2, hp2⟩ := h2
  have hname : uploadName f1 ≠ uploadName f2 := uploadName_ne_of_nano_ne hext hnano
  refine ⟨?_, uploadRef_ne_of_nano_ne hext hnano, ?_, ?_⟩
  · simp [saveImages, ho1, hc1, hp1, ho2, hc2, hp2]
  · rw [fsRead_fsWrite_other _ _ _ _ (Ne.symm hname)]
    exact fsRead_fsWrite_self fs (uploadName f1) f1.content
  · exact fsRead_fsWrite_self _ (uploadName f2) f2.content

/-- Concrete file upload used by the witness below. -/
def fileA : FileUpload := ⟨false, false, false, 1, ".png", [1]⟩

/-- Concrete file upload used by the witness below. -/
def fileB : FileUpload := ⟨false, false, false, 2, ".png", [2]⟩

/-- Witness for saveImages_distinct_nano on two concrete uploads. -/
theorem saveImages_distinct_nano_witness :
    saveImages [fileA, fileB] []
      = (.ok [uploadRef fileA, uploadRef fileB],
         fsWrite (fsWrite [] (uploadName fileA) fileA.content)
           (uploadName fileB) fileB.content) ∧
    uploadRef fileA ≠ uploadRef fileB ∧
    fsRead (fsWrite (fsWrite [] (uploadName fileA) fileA.content)
        (uploadName fileB) fileB.content) (uploadName fileA) = some fileA.content ∧
    fsRead (fsWrite (fsWrite [] (uploadName fileA) fileA.content)
        (uploadName fileB) fileB.content) (uploadName fileB) = some fileB.content :=
  saveImages_distinct_nano fileA fileB [] (by decide) (by decide) rfl (by decide)

end SimpleBlog
